import Mathlib

/-!
Shallow embedding of the go-oid package: ObjectIdentifier parsing,
validation, rendering, equality, alt-name handling, NameAndNumberForm
parsing and the name-to-OID registry.

Modelling conventions:
* Go strings are modelled as `List Char` (rune sequences).  Go indexes
  strings by byte; every concrete input in this development is ASCII,
  where byte indices and rune indices coincide.  The one place where the
  byte length itself matters (the `len(raw) < 6` gate of
  `NewObjectIdentifier`) uses the UTF-8 byte length `goStrLen`.
* A Go function that can panic returns `GoReturn`; `GoReturn.panic`
  abstracts the panic value away (no claim inspects panic messages).
* `errorf` messages are abstracted to the `ErrKind` constructor of the
  call site that produced them.
* Pointer values (`*ObjectIdentifier`, `*NameAndNumberForm`) are
  modelled as `Option`; `none` is the nil pointer.
-/

/-- Outcome of a Go function call: a normal return or a runtime panic. -/
inductive GoReturn (α : Type) where
  | ret (val : α)
  | panic
  deriving DecidableEq

/-- One `errorf` call site of the source (messages abstracted). -/
inductive ErrKind where
  | tooShort
  | badField
  | badIdentifier
  | badIdentChar
  | badNumber
  | invalidOID
  | noContent
  | noClosing
  | noOpening
  | badPrimary
  | nanfBadStart
  | nanfBadChar
  | nanfTrailingHyphen
  deriving DecidableEq

/-- The `ObjectIdentifier` struct of oid.go: `nANF, aka []string; ints []int`. -/
structure ObjectIdentifier where
  nANF : List (List Char)
  aka  : List (List Char)
  ints : List Int
  deriving DecidableEq

/-- The `NameAndNumberForm` struct of nanf.go: `identifier string;
primaryIdentifier uint`. -/
structure NameAndNumberForm where
  identifier : List Char
  primaryIdentifier : Nat
  deriving DecidableEq

/- ---------------- Go standard-library string primitives ---------------- -/

/-- UTF-8 byte length of a Go string (Go `len(s)` on a string). -/
def goStrLen (s : List Char) : Nat := (s.map Char.utf8Size).sum

/-- `strings.TrimLeft`: drop leading characters contained in `cutset`. -/
def goTrimLeft (s : List Char) (cutset : List Char) : List Char :=
  s.dropWhile (fun c => cutset.contains c)

/-- `strings.TrimRight`: drop trailing characters contained in `cutset`. -/
def goTrimRight (s : List Char) (cutset : List Char) : List Char :=
  (s.reverse.dropWhile (fun c => cutset.contains c)).reverse

/-- Split a character list at every character satisfying `p`, keeping
empty pieces (the splitting core shared by `strings.Split` and
`strings.Fields`). -/
def splitOnPred (p : Char → Bool) : List Char → List (List Char)
  | [] => [[]]
  | c :: rest =>
    if p c then [] :: splitOnPred p rest
    else
      match splitOnPred p rest with
      | [] => [[c]]
      | f :: fs => (c :: f) :: fs

/-- `unicode.IsSpace` restricted to the white space recognized by
`strings.Fields` (Latin-1 range of Unicode white space). -/
def goIsSpace (c : Char) : Bool :=
  c = ' ' ∨ c = '\t' ∨ c = '\n' ∨ c = '\x0b' ∨ c = '\x0c' ∨ c = '\r' ∨
    c = '\x85' ∨ c = '\xa0'

/-- `strings.Fields`: split around runs of white space, no empty fields. -/
def goFields (s : List Char) : List (List Char) :=
  (splitOnPred goIsSpace s).filter (fun w => !w.isEmpty)

/-- `strings.Split(s, ".")` for the single-character separator used by
`oidToIntSlices`. -/
def splitOnDot (s : List Char) : List (List Char) :=
  splitOnPred (fun c => c = '.') s

/-- `strings.IndexRune`: index of the first occurrence of `r`, `none`
standing for Go's `-1`.  (Go returns a byte index; this model returns a
rune index, which coincides on ASCII input.) -/
def indexOfChar (s : List Char) (r : Char) : Option Nat :=
  match s with
  | [] => none
  | c :: rest => if c = r then some 0 else (indexOfChar rest r).map (· + 1)

/-- `strings.Join(parts, sep)`. -/
def goJoin (sep : List Char) : List (List Char) → List Char
  | [] => []
  | [a] => a
  | a :: b :: rest => a ++ sep ++ goJoin sep (b :: rest)

/-- `strings.EqualFold`, modelled as simple case folding. -/
def eqFold (a b : List Char) : Bool :=
  a.map Char.toLower == b.map Char.toLower

/- ---------------- strconv ---------------- -/

/-- Accumulating decimal-digit scan of `strconv.ParseInt`: `none` on the
first non-digit character. -/
def parseGo : List Char → Nat → Option Nat
  | [], acc => some acc
  | c :: cs, acc =>
    if '0' ≤ c ∧ c ≤ '9' then parseGo cs (10 * acc + (c.toNat - 48)) else none

/-- All-decimal-digit parse; `none` for an empty string or a non-digit. -/
def parseDigits (s : List Char) : Option Nat :=
  if s.isEmpty then none else parseGo s 0

/-- Magnitude/overflow handling of `strconv.ParseInt` (base 10, 64 bit):
on a syntax error the value is 0, on a range error the clamped extreme;
the boolean is `err == nil`. -/
def goAtoiMag (digits : List Char) (neg : Bool) : Int × Bool :=
  match parseDigits digits with
  | none => (0, false)
  | some v =>
    if neg then
      if v ≤ 2 ^ 63 then (-(v : Int), true) else (-((2 : Int) ^ 63), false)
    else
      if v ≤ 2 ^ 63 - 1 then ((v : Int), true) else ((2 : Int) ^ 63 - 1, false)

/-- `strconv.Atoi`: optional sign followed by decimal digits. -/
def goAtoi (s : List Char) : Int × Bool :=
  match s with
  | [] => (0, false)
  | c :: rest =>
    if c = '+' then goAtoiMag rest false
    else if c = '-' then goAtoiMag rest true
    else goAtoiMag (c :: rest) false

/-- Decimal rendering worker; structurally recursive on a fuel argument
(`fuel ≥ n` makes it total and exact, and every caller passes `n`). -/
def natToCharsAux : Nat → Nat → List Char → List Char
  | 0, _, acc => acc
  | fuel + 1, n, acc =>
    if n = 0 then acc
    else natToCharsAux fuel (n / 10) (Char.ofNat (48 + n % 10) :: acc)

/-- Decimal rendering of a natural number. -/
def natToChars (n : Nat) : List Char :=
  if n = 0 then ['0'] else natToCharsAux n n []

/-- `strconv.Itoa`. -/
def goItoa (n : Int) : List Char :=
  if n < 0 then '-' :: natToChars (-n).toNat else natToChars n.toNat

/- ---------------- misc.go helpers ---------------- -/

/-- `isDigit` of the source: every rune is a decimal digit (true on ""). -/
def isDigit (val : List Char) : Bool :=
  val.all (fun c => '0' ≤ c ∧ c ≤ '9')

/-- `intSliceEqual` of the source, including the `len(s1)|len(s2) == 0`
branch that makes two empty slices compare unequal. -/
def intSliceEqual (s1 s2 : List Int) : Bool :=
  if s1.length ||| s2.length = 0 then false
  else if s1.length ≠ s2.length then false
  else s1 == s2

/-- `strSliceEqual` of the source (same shape as `intSliceEqual`). -/
def strSliceEqual (s1 s2 : List (List Char)) : Bool :=
  if s1.length ||| s2.length = 0 then false
  else if s1.length ≠ s2.length then false
  else s1 == s2

/- ---------------- ObjectIdentifier methods ---------------- -/

/-- `ObjectIdentifier.String`: `"{ " + strings.Join(o.nANF, " ") + " }"`. -/
def OidString (o : ObjectIdentifier) : List Char :=
  ['{', ' '] ++ goJoin [' '] o.nANF ++ [' ', '}']

/-- `o.ASN1().String()`: the dotted rendering of the arcs produced by
`encoding/asn1.ObjectIdentifier.String` (decimal values joined by "."). -/
def ASN1String (o : ObjectIdentifier) : List Char :=
  goJoin ['.'] (o.ints.map goItoa)

/-- The dynamic (`any`) argument of `ObjectIdentifier.Equal`.  The type
switch of the source dispatches on the first four shapes; the receiver's
own aggregate type (by value or pointer) and anything else fall through
to the final `return false`. -/
inductive EqArg where
  | asn1OID (tv : List Int)
  | intSlice (tv : List Int)
  | str (tv : List Char)
  | strSlice (tv : List (List Char))
  | oid (o : ObjectIdentifier)
  | oidPtr (p : Option ObjectIdentifier)
  | other
  deriving DecidableEq

/-- `ObjectIdentifier.Equal` of the source. -/
def Equal (o : ObjectIdentifier) (x : EqArg) : Bool :=
  match x with
  | .asn1OID tv => intSliceEqual tv o.ints
  | .intSlice tv => intSliceEqual tv o.ints
  | .str tv =>
    if ASN1String o = tv then true
    else if OidString o = tv then true
    else o.aka.any (fun a => eqFold a tv)
  | .strSlice tv => strSliceEqual o.nANF tv
  | .oid _ => false
  | .oidPtr _ => false
  | .other => false

/-- `ObjectIdentifier.Valid` of the source.  The `o.IsZero()` guard is
dead code for a value receiver (the address of a value is never nil) and
is therefore omitted.  After the length and negativity checks the source
reads `o.ints[0]` unconditionally, which panics on an empty slice. -/
def Valid (o : ObjectIdentifier) : GoReturn Bool :=
  if o.nANF.length ≠ o.ints.length then .ret false
  else if o.ints.any (fun arc => arc < 0) then .ret false
  else
    match o.ints with
    | [] => .panic
    | a :: _ => .ret (decide (0 ≤ a ∧ a ≤ 2))

/-- The dynamic (`any`) argument of `oidToIntSlices`. -/
inductive OidArg where
  | optr (p : Option ObjectIdentifier)
  | ooid (o : ObjectIdentifier)
  | ostr (s : List Char)
  | oasn1 (l : List Int)
  | oints (l : List Int)
  | oother
  deriving DecidableEq

/-- The dotted-string conversion loop of `oidToIntSlices`: any `Atoi`
error aborts the whole conversion (the source returns `[]int{}`). -/
def convArcs : List (List Char) → Option (List Int)
  | [] => some []
  | a :: rest =>
    let u := goAtoi a
    if u.2 then (convArcs rest).map (fun l => u.1 :: l) else none

/-- `oidToIntSlices` of the source.  The `*ObjectIdentifier` and
`ObjectIdentifier` cases recurse on `tv.ints`, which lands in the
`[]int` case and returns `tv.ints`; the recursion is inlined here.
Dereferencing a nil `*ObjectIdentifier` (`tv.ints`) panics. -/
def oidToIntSlices : OidArg → GoReturn (List Int)
  | .optr none => .panic
  | .optr (some o) => .ret o.ints
  | .ooid o => .ret o.ints
  | .ostr s => .ret ((convArcs (splitOnDot s)).getD [])
  | .oasn1 l => .ret l
  | .oints l => .ret l
  | .oother => .ret []

/-- The loop of `SetAltNames`, transcribed bug for bug.  The inner loop
`for j := 0; i < len(o.aka); i++ { if EqualFold(name[j], o.aka[i]) { continue } }`
tests but never changes anything (`continue` and normal fall-through both
run the `i++` post statement), so its sole effect is to advance `i` to
`max i (len o.aka)`; then `append(o.aka, name[i])` reads `name[i]`, which
panics when that index is out of range.  The loop runs at most
`name.length` iterations (`i` strictly increases), so the structural fuel
`name.length` passed by `SetAltNames` is exact. -/
def setAltNamesLoop : Nat → Nat → List (List Char) → List (List Char) →
    GoReturn (List (List Char))
  | 0, _, _, aka => .ret aka
  | fuel + 1, i, name, aka =>
    if i < name.length then
      let i' := max i aka.length
      match name[i']? with
      | none => .panic
      | some nm => setAltNamesLoop fuel (i' + 1) name (aka ++ [nm])
    else .ret aka

/-- `ObjectIdentifier.SetAltNames` of the source (pointer receiver,
modelled as returning the updated receiver). -/
def SetAltNames (o : ObjectIdentifier) (name : List (List Char)) :
    GoReturn ObjectIdentifier :=
  match setAltNamesLoop name.length 0 name o.aka with
  | .panic => .panic
  | .ret aka' => .ret ⟨o.nANF, aka', o.ints⟩

/- ---------------- NewObjectIdentifier ---------------- -/

/-- The character class accepted before the opening parenthesis by the
inline field validation of `NewObjectIdentifier`. -/
def isIdentChar (ch : Char) : Bool :=
  ('a' ≤ ch ∧ ch ≤ 'z') ∨ ('A' ≤ ch ∧ ch ≤ 'Z') ∨
    ('0' ≤ ch ∧ ch ≤ '9') ∨ ch = '-'

/-- The field loop of `NewObjectIdentifier`, accumulating into the
temporary `t`.  Faithful points: `Atoi` errors are discarded (`num, _`);
the digits check covers `f[i][idxl+1 : idxr-1]` (one character short of
the closing parenthesis); a missing `(` leaves `idxl = -1`, so the class
check loop is skipped and the slice starts at 0; a slice with
`idxl+1 > idxr-1` panics in Go. -/
def parseFieldsLoop : List (List Char) → ObjectIdentifier →
    GoReturn (Except ErrKind ObjectIdentifier)
  | [], t => .ret (.ok t)
  | fld :: rest, t =>
    if fld.length = 0 then .ret (.error .badField)
    else if isDigit fld then
      let num := (goAtoi fld).1
      parseFieldsLoop rest ⟨t.nANF ++ [fld], t.aka, t.ints ++ [num]⟩
    else
      match indexOfChar fld ')' with
      | none => .ret (.error .badIdentifier)
      | some idxr =>
        if idxr ≠ fld.length - 1 then .ret (.error .badIdentifier)
        else
          let idxl : Int :=
            match indexOfChar fld '(' with
            | none => -1
            | some k => (k : Int)
          if !(fld.take idxl.toNat).all isIdentChar then
            .ret (.error .badIdentChar)
          else if (idxl + 1) > ((idxr : Int) - 1) then .panic
          else
            let sub := (fld.drop (idxl + 1).toNat).take
              (((idxr : Int) - 1) - (idxl + 1)).toNat
            if !isDigit sub then .ret (.error .badNumber)
            else
              let numStr := (fld.drop (idxl + 1).toNat).take
                (((idxr : Int)) - (idxl + 1)).toNat
              let num := (goAtoi numStr).1
              parseFieldsLoop rest ⟨t.nANF ++ [fld], t.aka, t.ints ++ [num]⟩

/-- `NewObjectIdentifier` of the source.  `o = new(ObjectIdentifier)` is
executed before the field loop, so every error return after the length
gate carries a non-nil pointer to a zero-valued instance; `*o = *t` runs
only on full success. -/
def NewObjectIdentifier (raw : List Char) :
    GoReturn (Option ObjectIdentifier × Option ErrKind) :=
  if goStrLen raw < 6 then .ret (none, some .tooShort)
  else
    let f := goFields (goTrimRight (goTrimLeft raw ['{', ' ']) [' ', '}'])
    match parseFieldsLoop f ⟨[], [], []⟩ with
    | .panic => .panic
    | .ret (.error e) => .ret (some ⟨[], [], []⟩, some e)
    | .ret (.ok t) =>
      match Valid t with
      | .panic => .panic
      | .ret false => .ret (some ⟨[], [], []⟩, some .invalidOID)
      | .ret true => .ret (some t, none)

/- ---------------- nanf.go ---------------- -/

/-- The identifier-validation loop of `parseNaNFstr`, transcribed bug
for bug.  The source iterates `c` over `[0, len(x[:idx-1]))`, i.e. it
never inspects the final identifier character at index `idx-1`; the
trailing-hyphen branch compares `c` with `idx-1` and therefore never
fires, and even if it did it sets `err` without returning (modelled by
the carried accumulator).  Structural recursion on the remaining
iteration count `k`, called with `k = idx - 1`. -/
def nanfIdentLoop (x : List Char) (idx : Nat) :
    Nat → Nat → Option ErrKind → Except ErrKind (Option ErrKind)
  | _, 0, acc => .ok acc
  | c, k + 1, acc =>
    let ch := x.getD c ' '
    if c = 0 ∧ ¬('a' ≤ ch ∧ ch ≤ 'z') then .error .nanfBadStart
    else if !isIdentChar ch then .error .nanfBadChar
    else
      let acc' := if c = idx - 1 ∧ ch = '-' then some .nanfTrailingHyphen else acc
      nanfIdentLoop x idx (c + 1) k acc'

/-- `parseNaNFstr` of nanf.go.  After `nanf = new(NameAndNumberForm)`
every error return carries that (possibly partially filled) non-nil
pointer.  `x[:idx-1]` with `idx = 0` is the Go slice `x[:-1]`, a bounds
panic. -/
def parseNaNFstr (x : List Char) :
    GoReturn (Option NameAndNumberForm × Option ErrKind) :=
  if x.length = 0 then .ret (none, some .noContent)
  else if x.getLast? ≠ some ')' then .ret (none, some .noClosing)
  else
    match indexOfChar x '(' with
    | none => .ret (none, some .noOpening)
    | some idx =>
      let n := (x.drop (idx + 1)).take (x.length - 1 - (idx + 1))
      if !isDigit n then .ret (some ⟨[], 0⟩, some .badPrimary)
      else
        let f := (goAtoi n).1.toNat
        if idx = 0 then .panic
        else
          match nanfIdentLoop x idx 0 (idx - 1) none with
          | .error e => .ret (some ⟨[], f⟩, some e)
          | .ok acc => .ret (some ⟨x.take idx, f⟩, acc)

/- ---------------- registry (ObjectIdentifierMap.Get) ---------------- -/

/-- `ObjectIdentifierMap.Get` of the source.  The Go map is modelled as
an association list iterated in list order (Go map iteration order is
unspecified; the registries in the theorems below have one entry, where
order is irrelevant).  For each entry the source first evaluates
`v.Equal(term)`; `Equal` has a value receiver, so a nil `v` panics with
a nil dereference before the defensive `!v.IsZero()` can ever yield
`false`.  When `v` is non-nil, `!v.IsZero()` is `true`. -/
def GetOid : List (List Char × Option ObjectIdentifier) → EqArg →
    GoReturn (Option ObjectIdentifier × Bool)
  | [], _ => .ret (none, false)
  | (k, v) :: rest, term =>
    match v with
    | none => .panic
    | some ov =>
      if Equal ov term then .ret (some ov, true)
      else
        match term with
        | .str s => if eqFold k s then .ret (some ov, true) else GetOid rest term
        | _ => GetOid rest term


/- =================== Claim theorems =================== -/

/-- C2: the first half of the claim fails in the code: `Valid` on the
zero-valued (empty-but-constructed) `ObjectIdentifier` reads `o.ints[0]`
on an empty slice and panics instead of returning `false`; the second
half holds: every instance successfully returned by the parser
satisfies `Valid = true`. -/
theorem c2_valid_behaviour :
    Valid ⟨[], [], []⟩ = .panic ∧
    ∀ raw o, NewObjectIdentifier raw = .ret (some o, none) →
      Valid o = .ret true := by
  refine ⟨by decide, ?_⟩
  intro raw o h
  unfold NewObjectIdentifier at h
  split at h
  · simp at h
  · dsimp only [] at h
    split at h
    · simp at h
    · simp at h
    · split at h
      · simp at h
      · simp at h
      · rename_i hvalid
        simp only [GoReturn.ret.injEq, Prod.mk.injEq, Option.some.injEq] at h
        obtain ⟨rfl, -⟩ := h
        exact hvalid

/-- C2 witness: the parser succeeds on `{ iso(1) }`, and the theorem
yields `Valid = true` for the returned instance. -/
theorem c2_valid_behaviour_witness :
    Valid ⟨["iso(1)".toList], [], [1]⟩ = .ret true :=
  c2_valid_behaviour.2 ("{ iso(1) }".toList) ⟨["iso(1)".toList], [], [1]⟩
    (by decide)

/-- C3: the claim fails in the code: one `SetAltNames("x")` call on a
fresh instance stores `"x"`, but the second identical call panics (the
broken inner loop advances the outer index `i` to `len(o.aka)` and the
subsequent `append(o.aka, name[i])` indexes past the end of `name`)
instead of leaving the list with exactly one `"x"`; moreover one call
with a duplicated argument appends both copies, so case-insensitive
deduplication never happens. -/
theorem c3_setaltnames_behaviour :
    SetAltNames ⟨[], [], []⟩ ["x".toList] = .ret ⟨[], ["x".toList], []⟩ ∧
    SetAltNames ⟨[], ["x".toList], []⟩ ["x".toList] = .panic ∧
    SetAltNames ⟨[], [], []⟩ ["x".toList, "x".toList] =
      .ret ⟨[], ["x".toList, "x".toList], []⟩ :=
  ⟨by decide, by decide, by decide⟩

/-- C4: the claim fails for the OID parser: `NewObjectIdentifier`
accepts `{ 1Foo(1) }` and returns a valid instance (its inline field
validation never constrains the first identifier character), while the
package's own NameAndNumberForm parser `parseNaNFstr` rejects the same
field `1Foo(1)` for not starting with a lowercase letter. -/
theorem c4_lowercase_start :
    parseNaNFstr ("1Foo(1)".toList) = .ret (some ⟨[], 1⟩, some .nanfBadStart) ∧
    NewObjectIdentifier ("{ 1Foo(1) }".toList) =
      .ret (some ⟨["1Foo(1)".toList], [], [1]⟩, none) :=
  ⟨by decide, by decide⟩

/-- C5: the claim fails in the code: both parsers accept an identifier
ending in a hyphen.  `parseNaNFstr("ab-(1)")` succeeds with identifier
`"ab-"` — its trailing-hyphen check is dead code because the validation
loop stops at `len(x[:idx-1])`, one character before the position the
check tests — and `NewObjectIdentifier("{ ab-(1) }")` succeeds as well
(its field validation allows a hyphen anywhere before `(`). -/
theorem c5_trailing_hyphen :
    parseNaNFstr ("ab-(1)".toList) = .ret (some ⟨"ab-".toList, 1⟩, none) ∧
    NewObjectIdentifier ("{ ab-(1) }".toList) =
      .ret (some ⟨["ab-(1)".toList], [], [1]⟩, none) :=
  ⟨by decide, by decide⟩

/-- C6: the claim fails in the code: on a registry whose single entry
stores a nil `*ObjectIdentifier`, `Get` panics — the per-entry
`v.Equal(term)` call dereferences the nil pointer before the defensive
`!v.IsZero()` return can report not-found — even when the term equals
the entry's key. -/
theorem c6_get_nil_entry :
    GetOid [("k".toList, none)] (.str ("k".toList)) = .panic ∧
    GetOid [("k".toList, none)] (.intSlice [1, 3]) = .panic :=
  ⟨by decide, by decide⟩

/-- C7: parsing the canonical NameAndNumberForm sequence
`{ iso(1) identified-organization(3) dod(6) internet(1) }` succeeds, the
dotted rendering of the result is `1.3.6.1`, and its NameAndNumberForm
rendering reproduces the input exactly. -/
theorem c7_canonical_round_trip :
    NewObjectIdentifier
      ("{ iso(1) identified-organization(3) dod(6) internet(1) }".toList) =
      .ret (some ⟨["iso(1)".toList, "identified-organization(3)".toList,
        "dod(6)".toList, "internet(1)".toList], [], [1, 3, 6, 1]⟩, none) ∧
    ASN1String ⟨["iso(1)".toList, "identified-organization(3)".toList,
        "dod(6)".toList, "internet(1)".toList], [], [1, 3, 6, 1]⟩ =
      "1.3.6.1".toList ∧
    OidString ⟨["iso(1)".toList, "identified-organization(3)".toList,
        "dod(6)".toList, "internet(1)".toList], [], [1, 3, 6, 1]⟩ =
      "{ iso(1) identified-organization(3) dod(6) internet(1) }".toList :=
  ⟨by decide, by decide, by decide⟩

/-- C8 counterexample: the claim as stated is false: on input
`"abcdef"` the parser fails with an error, yet the returned instance is
a non-nil pointer to an empty-but-constructed `ObjectIdentifier`, not
the nil absence marker. -/
theorem c8_error_instance_cex :
    NewObjectIdentifier ("abcdef".toList) =
      .ret (some ⟨[], [], []⟩, some .badIdentifier) := by decide

/-- C8 amended: whenever `NewObjectIdentifier` returns an error, the
accompanying instance is either nil (the short-input gate) or a pointer
to the zero-valued `ObjectIdentifier` — never a partially built one
(arcs accumulate in a temporary copied only on success). -/
theorem c8_error_instance (raw : List Char) (o : Option ObjectIdentifier)
    (e : ErrKind) (h : NewObjectIdentifier raw = .ret (o, some e)) :
    o = none ∨ o = some ⟨[], [], []⟩ := by
  unfold NewObjectIdentifier at h
  split at h
  · simp only [GoReturn.ret.injEq, Prod.mk.injEq] at h
    exact Or.inl h.1.symm
  · dsimp only [] at h
    split at h
    · simp at h
    · simp only [GoReturn.ret.injEq, Prod.mk.injEq] at h
      exact Or.inr h.1.symm
    · split at h
      · simp at h
      · simp only [GoReturn.ret.injEq, Prod.mk.injEq] at h
        exact Or.inr h.1.symm
      · simp at h

/-- C8 witness: the amended theorem applied to the failing input
`{ foo }` (missing parenthesis), whose returned instance is the
zero-valued one. -/
theorem c8_error_instance_witness :
    NewObjectIdentifier ("{ foo }".toList) =
      .ret (some ⟨[], [], []⟩, some .badIdentifier) ∧
    ((some ⟨[], [], []⟩ : Option ObjectIdentifier) = none ∨
      (some ⟨[], [], []⟩ : Option ObjectIdentifier) = some ⟨[], [], []⟩) :=
  ⟨by decide,
    c8_error_instance ("{ foo }".toList) (some ⟨[], [], []⟩) .badIdentifier
      (by decide)⟩

/-- C9: `NewObjectIdentifier` fails for every raw input shorter than 6
bytes (Go `len`), regardless of its structure; the returned instance is
nil and the error is the short-input complaint. -/
theorem c9_short_input (raw : List Char) (h : goStrLen raw < 6) :
    NewObjectIdentifier raw = .ret (none, some .tooShort) := by
  unfold NewObjectIdentifier
  rw [if_pos h]

/-- C9 witness: the structurally valid inputs `0 0 0` and `{ 2 }` are
both shorter than 6 bytes and are rejected. -/
theorem c9_short_input_witness :
    (goStrLen ("0 0 0".toList) < 6 ∧
      NewObjectIdentifier ("0 0 0".toList) = .ret (none, some .tooShort)) ∧
    (goStrLen ("{ 2 }".toList) < 6 ∧
      NewObjectIdentifier ("{ 2 }".toList) = .ret (none, some .tooShort)) :=
  ⟨⟨by decide, c9_short_input ("0 0 0".toList) (by decide)⟩,
    ⟨by decide, c9_short_input ("{ 2 }".toList) (by decide)⟩⟩

/-- C10: `Equal` returns `false` whenever its argument is an
`ObjectIdentifier` or a pointer to one (these shapes are absent from the
type switch); in particular `o.Equal(o)` is `false` for every `o`. -/
theorem c10_equal_not_reflexive (o x : ObjectIdentifier)
    (p : Option ObjectIdentifier) :
    Equal o (.oid x) = false ∧ Equal o (.oidPtr p) = false ∧
      Equal o (.oid o) = false :=
  ⟨rfl, rfl, rfl⟩

/-- C1 counterexample: the claim as stated is false: the dotted string
`1.3.6.1` has all arcs non-negative and first arc 1, yet
`NewObjectIdentifier` rejects it (dotted-numeric input is not one of the
parser's supported shapes: the single whitespace field `1.3.6.1` is not
all digits and has no closing parenthesis). -/
theorem c1_dotted_parse_cex :
    NewObjectIdentifier ("1.3.6.1".toList) =
      .ret (some ⟨[], [], []⟩, some .badIdentifier) := by decide

/- ---------------- decimal round-trip lemmas for C1 ---------------- -/

/-- The rendering worker produces the base-10 digit characters of `n`
(most significant first) whenever its fuel is sufficient. -/
theorem natToCharsAux_eq (fuel : Nat) :
    ∀ (n : Nat) (acc : List Char), n ≤ fuel →
      natToCharsAux fuel n acc =
        ((Nat.digits 10 n).map (fun d => Char.ofNat (48 + d))).reverse ++ acc := by
  induction fuel with
  | zero =>
    intro n acc h
    have hn : n = 0 := by omega
    subst hn
    simp [natToCharsAux]
  | succ fuel ih =>
    intro n acc h
    rcases Nat.eq_zero_or_pos n with rfl | hn
    · simp [natToCharsAux]
    · have hlt : n / 10 < n := Nat.div_lt_self hn (by norm_num)
      rw [show natToCharsAux (fuel + 1) n acc =
          natToCharsAux fuel (n / 10) (Char.ofNat (48 + n % 10) :: acc) by
        simp [natToCharsAux, Nat.pos_iff_ne_zero.mp hn]]
      rw [ih (n / 10) _ (by omega)]
      rw [Nat.digits_def' (by norm_num : (1 : ℕ) < 10) hn]
      simp

theorem parseGo_append (a b : List Char) (acc : Nat) :
    parseGo (a ++ b) acc =
      match parseGo a acc with
      | none => none
      | some m => parseGo b m := by
  induction a generalizing acc with
  | nil => simp [parseGo]
  | cons c cs ih =>
    by_cases hc : '0' ≤ c ∧ c ≤ '9'
    · simp only [List.cons_append, parseGo, if_pos hc]
      exact ih _
    · simp [parseGo, hc]

/-- Scanning the rendered digit list of `ds` (least significant digit
last) accumulates `Nat.ofDigits 10 ds` on top of `acc`. -/
theorem parseGo_digits (ds : List Nat) (hds : ∀ d ∈ ds, d < 10) :
    ∀ acc : Nat,
      parseGo ((ds.map (fun d => Char.ofNat (48 + d))).reverse) acc =
        some (acc * 10 ^ ds.length + Nat.ofDigits 10 ds) := by
  induction ds with
  | nil => intro acc; simp [parseGo]
  | cons d ds ih =>
    intro acc
    have hd : d < 10 := hds d (by simp)
    have hds' : ∀ x ∈ ds, x < 10 := fun x hx => hds x (by simp [hx])
    rw [List.map_cons, List.reverse_cons, parseGo_append, ih hds' acc]
    have h1 : '0' ≤ Char.ofNat (48 + d) ∧ Char.ofNat (48 + d) ≤ '9' := by
      interval_cases d <;> decide
    have h2 : (Char.ofNat (48 + d)).toNat - 48 = d := by
      interval_cases d <;> decide
    simp only [parseGo, if_pos h1, h2, Option.some.injEq, Nat.ofDigits_cons,
      List.length_cons]
    ring

theorem parseDigits_natToChars (n : Nat) :
    parseDigits (natToChars n) = some n := by
  rcases Nat.eq_zero_or_pos n with rfl | hn
  · decide
  · have hne : Nat.digits 10 n ≠ [] :=
      Nat.digits_ne_nil_iff_ne_zero.mpr (by omega)
    have hd : ∀ d ∈ Nat.digits 10 n, d < 10 := fun d hdm =>
      Nat.digits_lt_base (by norm_num) hdm
    rw [natToChars, if_neg (by omega), natToCharsAux_eq n n [] le_rfl,
      List.append_nil, parseDigits]
    rw [if_neg (by simp [hne])]
    rw [parseGo_digits _ hd 0]
    simp [Nat.ofDigits_digits]

/-- Every character of the decimal rendering is a digit character. -/
theorem natToChars_digit (n : Nat) :
    ∀ c ∈ natToChars n, '0' ≤ c ∧ c ≤ '9' := by
  rcases Nat.eq_zero_or_pos n with rfl | hn
  · decide
  · rw [natToChars, if_neg (by omega), natToCharsAux_eq n n [] le_rfl,
      List.append_nil]
    intro c hc
    rw [List.mem_reverse, List.mem_map] at hc
    obtain ⟨d, hdm, rfl⟩ := hc
    have : d < 10 := Nat.digits_lt_base (by norm_num) hdm
    interval_cases d <;> decide

theorem natToChars_ne_nil (n : Nat) : natToChars n ≠ [] := by
  rcases Nat.eq_zero_or_pos n with rfl | hn
  · decide
  · have hne : Nat.digits 10 n ≠ [] :=
      Nat.digits_ne_nil_iff_ne_zero.mpr (by omega)
    rw [natToChars, if_neg (by omega), natToCharsAux_eq n n [] le_rfl,
      List.append_nil]
    simp [hne]

/-- `strconv.Atoi` inverts the decimal rendering of any in-range
natural number. -/
theorem goAtoi_natToChars (n : Nat) (h : n ≤ 2 ^ 63 - 1) :
    goAtoi (natToChars n) = ((n : Int), true) := by
  obtain ⟨c, cs, hcons⟩ := List.exists_cons_of_ne_nil (natToChars_ne_nil n)
  have hcd : '0' ≤ c ∧ c ≤ '9' := by
    have := natToChars_digit n c
    rw [hcons] at this
    exact this (by simp)
  have hplus : ¬ c = '+' := by
    rintro rfl
    exact absurd hcd.1 (by decide)
  have hminus : ¬ c = '-' := by
    rintro rfl
    exact absurd hcd.1 (by decide)
  rw [hcons, goAtoi, if_neg hplus, if_neg hminus, ← hcons, goAtoiMag,
    parseDigits_natToChars n]
  simp only [if_pos (show n ≤ 2 ^ 63 - 1 from h)]
  simp

/- ---------------- split / join lemmas for C1 ---------------- -/

theorem splitOnPred_ne_nil (p : Char → Bool) (s : List Char) :
    splitOnPred p s ≠ [] := by
  induction s with
  | nil => simp [splitOnPred]
  | cons c rest ih =>
    rw [splitOnPred]
    by_cases hc : p c
    · simp [hc]
    · simp only [hc]
      cases hm : splitOnPred p rest <;> simp

/-- Splitting a separator-free list returns it whole. -/
theorem splitOnPred_no_sep (p : Char → Bool) (s : List Char)
    (h : ∀ c ∈ s, ¬ p c) : splitOnPred p s = [s] := by
  induction s with
  | nil => rfl
  | cons c rest ih =>
    rw [splitOnPred, if_neg (h c (by simp)),
      ih (fun x hx => h x (by simp [hx]))]

/-- Splitting at the first separator after a separator-free prefix. -/
theorem splitOnPred_sep (p : Char → Bool) (a : List Char) (sep : Char)
    (t : List Char) (hsep : p sep) (ha : ∀ c ∈ a, ¬ p c) :
    splitOnPred p (a ++ sep :: t) = a :: splitOnPred p t := by
  induction a with
  | nil => simp [splitOnPred, hsep]
  | cons c cs ih =>
    rw [List.cons_append, splitOnPred, if_neg (ha c (by simp)),
      ih (fun x hx => ha x (by simp [hx]))]

/-- `strings.Split` on "." undoes `strings.Join` with "." when no part
contains a dot. -/
theorem splitOnDot_goJoin (parts : List (List Char)) (hne : parts ≠ [])
    (h : ∀ part ∈ parts, ∀ c ∈ part, c ≠ '.') :
    splitOnDot (goJoin ['.'] parts) = parts := by
  induction parts with
  | nil => exact absurd rfl hne
  | cons a rest ih =>
    cases rest with
    | nil =>
      rw [goJoin]
      exact splitOnPred_no_sep _ a
        (fun c hc => by simpa using h a (by simp) c hc)
    | cons b rest' =>
      rw [goJoin, show a ++ ['.'] ++ goJoin ['.'] (b :: rest') =
        a ++ '.' :: goJoin ['.'] (b :: rest') by simp]
      rw [splitOnDot, splitOnPred_sep _ a '.' _ (by simp)
        (fun c hc => by simpa using h a (by simp) c hc)]
      rw [← splitOnDot, ih (by simp) (fun part hp => h part (by simp [hp]))]

/-- The conversion loop of `oidToIntSlices` inverts `strconv.Itoa` on
every list of in-range non-negative arcs. -/
theorem convArcs_render (ns : List Int)
    (h : ∀ n ∈ ns, 0 ≤ n ∧ n ≤ 2 ^ 63 - 1) :
    convArcs (ns.map goItoa) = some ns := by
  induction ns with
  | nil => rfl
  | cons n rest ih =>
    obtain ⟨h0, h1⟩ := h n (by simp)
    have hrender : goItoa n = natToChars n.toNat := by
      rw [goItoa, if_neg (by omega)]
    have hat : goAtoi (natToChars n.toNat) = ((n.toNat : Int), true) :=
      goAtoi_natToChars n.toNat (by omega)
    rw [List.map_cons, convArcs, hrender]
    simp [hat, ih (fun x hx => h x (by simp [hx])), Int.toNat_of_nonneg h0]

/-- C1 amended, second half: the dotted-numeric conversion lives in
`oidToIntSlices`, not in the parser: for every list of in-range
non-negative arcs, converting its dotted rendering (decimal arcs joined
by ".") yields exactly that arc list. -/
theorem c1_dotted_round_trip (ns : List Int)
    (h : ∀ n ∈ ns, 0 ≤ n ∧ n ≤ 2 ^ 63 - 1) :
    oidToIntSlices (.ostr (goJoin ['.'] (ns.map goItoa))) = .ret ns := by
  simp only [oidToIntSlices]
  cases ns with
  | nil => decide
  | cons a rest =>
    have hdot : ∀ part ∈ (a :: rest).map goItoa, ∀ c ∈ part, c ≠ '.' := by
      intro part hp c hc
      rw [List.mem_map] at hp
      obtain ⟨n, hn, rfl⟩ := hp
      obtain ⟨h0, -⟩ := h n hn
      rw [goItoa, if_neg (by omega)] at hc
      have := natToChars_digit n.toNat c hc
      rintro rfl
      exact absurd this.1 (by decide)
    rw [splitOnDot_goJoin _ (by simp) hdot, convArcs_render _ h]
    rfl

/-- C1 witness for the amended round trip: the arc list `[1, 3, 6, 1]`
renders to the dotted string `1.3.6.1` and converts back to itself. -/
theorem c1_dotted_round_trip_witness :
    goJoin ['.'] (([1, 3, 6, 1] : List Int).map goItoa) = "1.3.6.1".toList ∧
    oidToIntSlices (.ostr (goJoin ['.'] (([1, 3, 6, 1] : List Int).map goItoa))) =
      .ret [1, 3, 6, 1] :=
  ⟨by decide, c1_dotted_round_trip [1, 3, 6, 1] (by decide)⟩
